import Mathlib

/-!
Verification development for the procman deputy (distributed process
supervisor).  Each section shallowly embeds one part of the C++ source
(`src/deputy/exec_string_utils.cpp`, `src/src/deputy/procman.cpp`,
`src/src/deputy/procman_deputy.cpp`, `src/src/deputy/lcm_util.hpp` and the
matching revisions in `src/unnamed/`) as executable Lean definitions, and the
theorems at the end settle the specification claims against those definitions.
-/

namespace Procman

/-! ### Variable expansion (`exec_string_utils.cpp`, `VariableExpander`)

The expander walks the input left to right.  A backslash consumes the next
character (the source emits the backslash itself and drops the consumed
character); a dollar sign enters `ParseVariable`; every other character is
copied to the output.  The recursion is driven by a fuel argument equal to the
length of the input: the C++ loop advances `pos_` by at least one on every
iteration, so this fuel is exactly the source's termination measure. -/

/-- `VariableExpander::IsValidVariableCharacter` from
`src/deputy/exec_string_utils.cpp` lines 137-142 (identical in
`src/src/deputy/procman.cpp`): `valid_start` is the ASCII letters plus
underscore and is accepted at every position; `valid_follow` is the digits and
is accepted only when `0 == pos`, i.e. only as the *first* character of the
name. -/

def IsValidVariableCharacter (c : Char) (pos : Nat) : Bool :=
  (c.isAlpha || c == '_') || (pos == 0 && c.isDigit)

/-- The variable-name scan of `ParseVariable`: take characters while
`IsValidVariableCharacter` accepts them at their position. -/

def scanVarName : List Char → Nat → List Char
  | [], _ => []
  | c :: rest, pos =>
    if IsValidVariableCharacter c pos then c :: scanVarName rest (pos + 1) else []

/-- The variable lookup of `ParseVariable`: first the deputy's stored variable
table (`variables_`), then the process environment (`getenv`).  Both are
modelled as association lists. -/

def lookupVar (vars env : List (String × String)) (name : String) : Option String :=
  match vars.lookup name with
  | some v => some v
  | none => env.lookup name

/-- `VariableExpander::ParseVariable` (`src/deputy/exec_string_utils.cpp`
lines 91-135).  `rest` is the input after the already-consumed `$`.  Returns
the characters emitted to the output and the remaining input.  On failure
(`!ok`) the source echoes `input_[start-1 .. pos_-1]`, i.e. the `$` plus every
character consumed while parsing, which includes an opening brace, the scanned
name, and a consumed non-`}` closer. -/

def ParseVariable (vars env : List (String × String)) (rest : List Char) :
    List Char × List Char :=
  match rest with
  | [] => (['$'], [])
  | c0 :: _ =>
    let hasBraces := c0 == '{'
    let afterBrace := if hasBraces then rest.tail else rest
    let name := scanVarName afterBrace 0
    let afterName := afterBrace.drop name.length
    let step : List Char × List Char × Bool :=
      if hasBraces then
        match afterName with
        | [] => ('{' :: name, [], false)
        | b :: rest2 => ('{' :: (name ++ [b]), rest2, b == '}')
      else (name, afterName, true)
    let consumed := step.1
    let remaining := step.2.1
    let bracesOk := step.2.2
    if name ≠ [] && bracesOk then
      match lookupVar vars env (String.mk name) with
      | some val => (val.data, remaining)
      | none => ('$' :: consumed, remaining)
    else ('$' :: consumed, remaining)

/-- `VariableExpander::Process` (`src/deputy/exec_string_utils.cpp` lines
52-70), fuel-indexed.  The backslash branch mirrors the source exactly: with a
following character available it emits the backslash (`output_.put(c)` where
`c` is the backslash) and drops the consumed character; at end of input it
emits a lone backslash. -/

def ProcessF (vars env : List (String × String)) : Nat → List Char → List Char
  | 0, _ => []
  | _ + 1, [] => []
  | fuel + 1, c :: rest =>
    if c == '\\' then
      match rest with
      | [] => ['\\']
      | _ :: rest2 => '\\' :: ProcessF vars env fuel rest2
    else if c == '$' then
      let pr := ParseVariable vars env rest
      pr.1 ++ ProcessF vars env fuel pr.2
    else
      c :: ProcessF vars env fuel rest

/-- `ExpandVariables` (`src/deputy/exec_string_utils.cpp` lines 151-154):
run the expander over the whole input. -/

def ExpandVariables (input : String) (vars env : List (String × String)) : String :=
  String.mk (ProcessF vars env input.data.length input.data)


/-! ### Deputy engine: per-command state and respawn backoff
(`src/src/deputy/procman_deputy.cpp` and the revision in
`src/unnamed/part_007`) -/

def MIN_RESPAWN_DELAY_MS : Int := 10

def MAX_RESPAWN_DELAY_MS : Int := 1000

def RESPAWN_BACKOFF_RATE : Int := 2

def PROCMAN_MAX_MESSAGE_AGE_USEC : Int := 60000000

def DISCOVERY_TIME_MS : Int := 1500

/-- `PROCMAN_CMD_STOPPED` / `PROCMAN_CMD_RUNNING`: a command is running iff
its `pid` is non-zero, so the pid is abstracted to this two-valued status. -/

inductive CommandStatus where
  | stopped
  | running
deriving DecidableEq, Repr

/-- The respawn-backoff update at the top of `start_cmd`
(`src/src/deputy/procman_deputy.cpp` lines 290-301, identically
`src/unnamed/part_007` lines 313-324): if fewer than
`MAX_RESPAWN_DELAY_MS` ms elapsed since the last start, double the backoff
capped at `MAX_RESPAWN_DELAY_MS`; otherwise right-shift it by
`ms_since_started / MAX_RESPAWN_DELAY_MS`, floored at `MIN_RESPAWN_DELAY_MS`.
The C right shift on the non-negative backoff is division by a power of
two. -/

def updateRespawnBackoff (backoff ms_since_started : Int) : Int :=
  if ms_since_started < MAX_RESPAWN_DELAY_MS then
    min MAX_RESPAWN_DELAY_MS (backoff * RESPAWN_BACKOFF_RATE)
  else
    max MIN_RESPAWN_DELAY_MS
      (backoff / 2 ^ (ms_since_started / MAX_RESPAWN_DELAY_MS).toNat)

/-- The deputy's per-command record (`DeputyCommand` in
`src/src/deputy/procman_deputy.hpp` merged with the fields of the owned
`ProcmanCommand` that the orders handler reads).  `pid` is abstracted to
`status` (running iff `pid != 0`). -/

structure DeputyCmd where
  sheriff_id : Int
  command_id : String
  exec_str : String
  group : String
  auto_respawn : Bool
  stop_signal : Int
  stop_time_allowed : Int
  status : CommandStatus
  actual_runid : Int
  should_be_stopped : Bool
  first_kill_time : Int
  num_kills_sent : Int
  respawn_timer_active : Bool
  respawn_backoff : Int
  last_start_time : Int
  remove_requested : Bool
deriving DecidableEq, Repr

/-- `stop_cmd` (`src/src/deputy/procman_deputy.cpp` lines 331-361,
identically `src/unnamed/part_007` lines 348-372).  `killOk signum` tells
whether the kill delivering `signum` succeeds.  Returns the updated record,
the C return status, and the list of signals delivered to the command's
process.  The very first line of the source is `if (!cmd->pid) return 0;`,
before any state is touched. -/

def stop_cmd (killOk : Int → Bool) (now : Int) (mi : DeputyCmd) :
    DeputyCmd × Int × List Int :=
  if mi.status = CommandStatus.stopped then (mi, 0, [])
  else
    let mi1 := { mi with should_be_stopped := true, respawn_timer_active := false }
    let sigkill_time := mi.first_kill_time + mi.stop_time_allowed * 1000000
    if mi.first_kill_time = 0 then
      ({ mi1 with first_kill_time := now, num_kills_sent := mi.num_kills_sent + 1 },
       if killOk mi.stop_signal then 0 else -1, [mi.stop_signal])
    else if now > sigkill_time then
      (mi1, if killOk 9 then 0 else -1, [9])
    else
      (mi1, 0, [])

/-- `start_cmd` (`src/src/deputy/procman_deputy.cpp` lines 278-330).
`startOk` abstracts the success of `procman_start_cmd` (the forkpty spawn).
On success the child is running, `actual_runid` takes the desired runid, and
the kill bookkeeping is reset; on failure `maybe_schedule_respawn` arms the
single-shot respawn timer. -/

def start_cmd (startOk : Bool) (exiting : Bool) (now : Int) (mi : DeputyCmd)
    (desired_runid : Int) : DeputyCmd × Int :=
  if exiting then (mi, -1)
  else
    let ms_since_started := (now - mi.last_start_time) / 1000
    let mi1 := { mi with
      should_be_stopped := false,
      respawn_timer_active := false,
      respawn_backoff := updateRespawnBackoff mi.respawn_backoff ms_since_started,
      last_start_time := now }
    if startOk then
      ({ mi1 with
          status := CommandStatus.running,
          actual_runid := desired_runid,
          num_kills_sent := 0,
          first_kill_time := 0 }, 0)
    else
      ({ mi1 with respawn_timer_active :=
          mi1.auto_respawn && !mi1.should_be_stopped && !exiting }, -1)

/-- C10: `stop_cmd` on a command whose `pid` is 0 returns success and performs
no state change at all: no signal is sent and every field of the record,
including `should_be_stopped`, `first_kill_time`, `num_kills_sent` and the
respawn-timer flag, is untouched. -/

def sampleStoppedCmd : DeputyCmd where
  sheriff_id := 7
  command_id := "a"
  exec_str := "/bin/sleep 10"
  group := ""
  auto_respawn := true
  stop_signal := 2
  stop_time_allowed := 7
  status := CommandStatus.stopped
  actual_runid := 1
  should_be_stopped := false
  first_kill_time := 0
  num_kills_sent := 0
  respawn_timer_active := false
  respawn_backoff := 10
  last_start_time := 0
  remove_requested := false

/-! ### Orders handling (`_handle_orders2`,
`src/src/deputy/procman_deputy.cpp` lines 709-905, matching
`src/unnamed/part_007`) -/

/-- One desired-command record of a `PM_ORDERS` message
(`procman_lcm_cmd_desired_t` with its nested command fields). -/

structure CmdOrder where
  sheriff_id : Int
  command_id : String
  exec_str : String
  group : String
  auto_respawn : Bool
  stop_signal : Int
  stop_time_allowed : Int
  desired_runid : Int
  force_quit : Bool
deriving DecidableEq, Repr

/-- A `PM_ORDERS` message (`procman_lcm_orders_t`). -/

structure OrdersMsg where
  utime : Int
  host : String
  sheriff_name : String
  cmds : List CmdOrder
deriving DecidableEq, Repr

/-- Deputy state touched by `_handle_orders2`. -/

structure DeputyState where
  exiting : Bool
  hostname : String
  commands : List DeputyCmd
deriving DecidableEq, Repr

/-- Diagnostics published on the output channel by `_handle_orders2`; the
stale-orders branch emits one `printf_and_transmit` per command of the
message, mentioning the system clocks. -/

inductive OutputMsg where
  | staleOrdersWarning (sheriff_id : Int) (age_sec : Int)
deriving DecidableEq, Repr

/-- Reconciliation actions taken by the orders handler, for stating which
commands were created, started, stopped or removed. -/

inductive DeputyAction where
  | created (sheriff_id : Int)
  | started (sheriff_id : Int)
  | stopReq (sheriff_id : Int)
  | removed (sheriff_id : Int)
deriving DecidableEq, Repr

/-- `find_local_cmd`: commands are looked up by `sheriff_id`. -/

def find_local_cmd (cmds : List DeputyCmd) (sheriff_id : Int) : Option DeputyCmd :=
  cmds.find? (fun mi => mi.sheriff_id == sheriff_id)

/-- The freshly-created record for a command named by the orders but not yet
known (`new DeputyCommand()` plus the explicit field assignments in
`_handle_orders2`; the value-initialised POD members are zero). -/

def newDeputyCmd (msg : CmdOrder) : DeputyCmd where
  sheriff_id := msg.sheriff_id
  command_id := msg.command_id
  exec_str := msg.exec_str
  group := msg.group
  auto_respawn := msg.auto_respawn
  stop_signal := msg.stop_signal
  stop_time_allowed := msg.stop_time_allowed
  status := CommandStatus.stopped
  actual_runid := 0
  should_be_stopped := false
  first_kill_time := 0
  num_kills_sent := 0
  respawn_timer_active := false
  respawn_backoff := MIN_RESPAWN_DELAY_MS
  last_start_time := 0
  remove_requested := false

/-- The per-command body of the orders loop in `_handle_orders2`
(`src/src/deputy/procman_deputy.cpp` lines 804-864, `src/unnamed/part_007`
lines 783-843): update the mutable attributes in place (recording
`action_taken` for the exec string, id and group but not for auto-respawn,
stop signal or stop-time-allowed), set `should_be_stopped = force_quit`, then
reconcile: start if stopped with a runid mismatch and not force-quit, stop if
running and (force-quit or runid mismatch), else overwrite `actual_runid`
with `desired_runid`.  Returns the updated record, the `action_taken`
contribution, and the start/stop actions performed.

`updateCmdAttrs` condenses the source's six guarded in-place assignments:
each `if (field differs) field = msg.field` leaves the field equal to the
message's value either way, so the result assigns all six fields, and the
`action_taken` contribution is the disjunction of the three comparisons the
source flags (exec string, command id, group; auto-respawn, stop signal and
stop-time-allowed are updated without setting the flag). -/

def updateCmdAttrs (mi : DeputyCmd) (msg : CmdOrder) : DeputyCmd × Bool :=
  ({ mi with
      exec_str := msg.exec_str,
      command_id := msg.command_id,
      auto_respawn := msg.auto_respawn,
      group := msg.group,
      stop_signal := msg.stop_signal,
      stop_time_allowed := msg.stop_time_allowed },
   (mi.exec_str != msg.exec_str) || (mi.command_id != msg.command_id) ||
     (mi.group != msg.group))

def applyOrdersToCmd (startOk : Bool) (killOk : Int → Bool) (exiting : Bool)
    (now : Int) (mi : DeputyCmd) (msg : CmdOrder) :
    DeputyCmd × Bool × List DeputyAction :=
  let u := updateCmdAttrs mi msg
  let m7 := { u.1 with should_be_stopped := msg.force_quit }
  if m7.status = CommandStatus.stopped ∧ m7.actual_runid ≠ msg.desired_runid ∧
      m7.should_be_stopped = false then
    ((start_cmd startOk exiting now m7 msg.desired_runid).1, true,
      [DeputyAction.started mi.sheriff_id])
  else if m7.status = CommandStatus.running ∧
      (m7.should_be_stopped = true ∨ msg.desired_runid ≠ m7.actual_runid) then
    ((stop_cmd killOk now m7).1, true, [DeputyAction.stopReq mi.sheriff_id])
  else
    ({ m7 with actual_runid := msg.desired_runid }, u.2, [])

/-- Replace the record with the given `sheriff_id` (record identity is the
`sheriff_id`; the deputy owns at most one record per id). -/

def replaceCmd (cmds : List DeputyCmd) (sid : Int) (newMi : DeputyCmd) :
    List DeputyCmd :=
  cmds.map (fun mi => if mi.sheriff_id == sid then newMi else mi)

/-- One iteration of the orders loop: look the command up by `sheriff_id`,
create it first when missing, and apply the per-command body. -/

def processOneOrder (startOk : Bool) (killOk : Int → Bool) (exiting : Bool)
    (now : Int) (acc : List DeputyCmd × Bool × List DeputyAction)
    (msg : CmdOrder) : List DeputyCmd × Bool × List DeputyAction :=
  match find_local_cmd acc.1 msg.sheriff_id with
  | some mi =>
    let r := applyOrdersToCmd startOk killOk exiting now mi msg
    (replaceCmd acc.1 msg.sheriff_id r.1, acc.2.1 || r.2.1, acc.2.2 ++ r.2.2)
  | none =>
    let r := applyOrdersToCmd startOk killOk exiting now (newDeputyCmd msg) msg
    (acc.1 ++ [r.1], true,
      acc.2.2 ++ DeputyAction.created msg.sheriff_id :: r.2.2)

/-- The cull pass at the end of `_handle_orders2` (lines 866-901): every
local record whose `sheriff_id` the orders do not mention is stopped (with
`remove_requested` set) if its child is running, and removed outright if
not. -/

def cullCmds (killOk : Int → Bool) (now : Int) (orders : OrdersMsg)
    (cmds : List DeputyCmd) : List DeputyCmd × Bool × List DeputyAction :=
  cmds.foldl
    (fun acc mi =>
      if orders.cmds.any (fun c => c.sheriff_id == mi.sheriff_id) then
        (acc.1 ++ [mi], acc.2.1, acc.2.2)
      else if mi.status = CommandStatus.running then
        (acc.1 ++ [(stop_cmd killOk now { mi with remove_requested := true }).1],
         true, acc.2.2 ++ [DeputyAction.stopReq mi.sheriff_id])
      else
        (acc.1, true, acc.2.2 ++ [DeputyAction.removed mi.sheriff_id]))
    ([], false, [])

/-- `_handle_orders2` (`src/src/deputy/procman_deputy.cpp` lines 709-905).
Returns the new deputy state, the diagnostics transmitted, the
reconciliation actions, and whether a status update (`transmit_proc_info`)
was published.  The guards appear in source order: exiting, foreign host,
stale orders (strictly older than `PROCMAN_MAX_MESSAGE_AGE_USEC`). -/

def handleOrders (startOk : Bool) (killOk : Int → Bool) (now : Int)
    (st : DeputyState) (orders : OrdersMsg) :
    DeputyState × List OutputMsg × List DeputyAction × Bool :=
  if st.exiting then (st, [], [], false)
  else if orders.host ≠ st.hostname then (st, [], [], false)
  else if now - orders.utime > PROCMAN_MAX_MESSAGE_AGE_USEC then
    (st,
     orders.cmds.map (fun c =>
       OutputMsg.staleOrdersWarning c.sheriff_id ((now - orders.utime) / 1000000)),
     [], false)
  else
    let r1 := orders.cmds.foldl (processOneOrder startOk killOk st.exiting now)
      (st.commands, false, [])
    let r2 := cullCmds killOk now orders r1.1
    ({ st with commands := r2.1 }, [], r1.2.2 ++ r2.2.2, r1.2.1 || r2.2.1)

def cexRunningCmd : DeputyCmd where
  sheriff_id := 7
  command_id := "a"
  exec_str := "e"
  group := ""
  auto_respawn := false
  stop_signal := 2
  stop_time_allowed := 7
  status := CommandStatus.running
  actual_runid := 5
  should_be_stopped := false
  first_kill_time := 0
  num_kills_sent := 0
  respawn_timer_active := false
  respawn_backoff := 10
  last_start_time := 0
  remove_requested := false

def cexOrderRunidZero : CmdOrder where
  sheriff_id := 7
  command_id := "a"
  exec_str := "e"
  group := ""
  auto_respawn := false
  stop_signal := 2
  stop_time_allowed := 7
  desired_runid := 0
  force_quit := false

/-- C6: orders whose `utime` is more than `PROCMAN_MAX_MESSAGE_AGE_USEC`
(60 s) in the past are discarded before any reconciliation: the deputy state
is unchanged, no create/start/stop/remove action happens, no status update is
published, and exactly one clock-check diagnostic is transmitted for each
command listed in the orders.  (The handler's earlier guards — exiting and
foreign host — drop the message before the stale check, so the theorem is
stated for a non-exiting deputy and orders addressed to it.) -/

def staleWitnessState : DeputyState where
  exiting := false
  hostname := "h"
  commands := []

def staleWitnessOrders : OrdersMsg where
  utime := 0
  host := "h"
  sheriff_name := "s"
  cmds := [cexOrderRunidZero]

/-! ### Process manager kill path (`Procman::KillCommmand`,
`src/src/deputy/procman.cpp` lines 161-187; the revision in
`src/unnamed/part_005` is the same logic returning `bool`) -/

/-- The fields of `ProcmanCommand` that the kill path touches: the child pid
(0 when not running) and the list of already-signalled descendants. -/

structure ProcmanCommand where
  pid : Int
  descendants_to_kill : List Int
deriving DecidableEq, Repr

/-- Result of `Procman::KillCommmand`: `-EINVAL` when the command has no
pid, `-errno` when the `kill` on the main pid fails, 0 on success. -/

inductive KillResult where
  | einval
  | errnoFailure
  | ok
deriving DecidableEq, Repr

/-- The loop body recording a descendant: `descendants_to_kill.push_back`
guarded by a `std::find`, i.e. insert only when absent. -/

def pushIfAbsent (acc : List Int) (child : Int) : List Int :=
  if child ∈ acc then acc else acc ++ [child]

/-- `Procman::KillCommmand` (`src/src/deputy/procman.cpp` lines 161-187).
`killOk pid` abstracts the success of the `kill` system call on the main
pid (the source ignores the result of `kill` on descendants);
`descendants` is the list returned by `procinfo_get_descendants`.  Returns
the updated record, the result, and the `(pid, signum)` pairs delivered. -/

def KillCommmand (killOk : Int → Bool) (descendants : List Int)
    (cmd : ProcmanCommand) (signum : Int) :
    ProcmanCommand × KillResult × List (Int × Int) :=
  if cmd.pid = 0 then (cmd, KillResult.einval, [])
  else if killOk cmd.pid = false then
    (cmd, KillResult.errnoFailure, [(cmd.pid, signum)])
  else
    ({ cmd with descendants_to_kill :=
        descendants.foldl pushIfAbsent cmd.descendants_to_kill },
     KillResult.ok,
     (cmd.pid, signum) :: descendants.map (fun c => (c, signum)))

/-! ### Discovery phase (`procman_deputy_discovery_received` /
`procman_deputy_info2_received`, `src/src/deputy/procman_deputy.cpp` lines
915-955) -/

/-- Effect of one incoming discovery/info message on the deputy process. -/

inductive DiscoveryEffect where
  | exitCode (code : Nat)
  | transmitInfo
  | ignore
deriving DecidableEq, Repr

/-- `procman_deputy_discovery_received`: during the discovery window
(`now < deputy_start_time + DISCOVERY_TIME_MS * 1000`) a discovery message
from a deputy with the same id but a different nonce aborts with
`exit(1)`; outside the window the deputy replies with a status publish. -/

def procman_deputy_discovery_received (now deputy_start_time : Int)
    (hostname : String) (deputy_pid : Int) (msg_host : String)
    (msg_nonce : Int) : DiscoveryEffect :=
  if now < deputy_start_time + DISCOVERY_TIME_MS * 1000 then
    if msg_host = hostname ∧ msg_nonce ≠ deputy_pid then
      DiscoveryEffect.exitCode 1
    else DiscoveryEffect.ignore
  else DiscoveryEffect.transmitInfo

/-- `procman_deputy_info2_received`: during the discovery window an info
message reporting a deputy with the same id aborts with `exit(2)`; outside
the window the message only produces a warning log. -/

def procman_deputy_info2_received (now deputy_start_time : Int)
    (hostname : String) (msg_host : String) : DiscoveryEffect :=
  if now < deputy_start_time + DISCOVERY_TIME_MS * 1000 then
    if msg_host = hostname then DiscoveryEffect.exitCode 2
    else DiscoveryEffect.ignore
  else DiscoveryEffect.ignore

/-! ### Event loop (`EventLoop`, `SocketNotifier`, `Timer` in
`src/src/deputy/lcm_util.hpp`, header in `src/unnamed/part_007`)

Callbacks are modelled as effect-free: an iteration is observed through the
ordered list of callbacks it invokes.  The only callback effect the claims
need — a socket callback destroying another queued notifier — is supplied by
the `destroys` oracle of `runReadyQueue`. -/

/-- Overwrite the first queue slot holding `x` with null
(`*ready_iter = nullptr` after `std::find`); if `x` is not present the
queue is unchanged. -/

def replaceFirst (x : Option Nat) : List (Option Nat) → List (Option Nat)
  | [] => []
  | y :: rest => if y = x then none :: rest else y :: replaceFirst x rest

/-- The state the socket half of the loop owns: `sockets_` (registration
order) and `sockets_ready_` (the per-iteration callback queue, with null
slots for destroyed notifiers). -/

structure SocketsState where
  sockets : List Nat
  readyQueue : List (Option Nat)
deriving DecidableEq, Repr

/-- `SocketNotifier::~SocketNotifier` (`src/src/deputy/lcm_util.hpp` lines
83-101): erase the notifier from `sockets_`, and null out — never erase —
its slot in `sockets_ready_` so the callback loop's indices stay valid.
(The source's guard tests the wrong iterator, `iter` instead of
`ready_iter`; in the queued case the write still hits the slot `std::find`
located, which is what the model captures, and in the not-queued case the
model leaves the queue unchanged.) -/

def destroySocketNotifier (id : Nat) (st : SocketsState) : SocketsState :=
  { sockets := st.sockets.erase id,
    readyQueue := replaceFirst (some id) st.readyQueue }

/-- Null out the queue slots of all notifiers a callback destroyed. -/

def nullOutAll (ds : List Nat) (q : List (Option Nat)) : List (Option Nat) :=
  ds.foldl (fun acc j => replaceFirst (some j) acc) q

/-- The callback loop over `sockets_ready_` in `EventLoop::IterateOnce`
(lines 317-325): walk the queue by index, skip null slots, invoke the rest;
a callback may destroy notifiers (`destroys`), which nulls their pending
slots.  Fuel-indexed (one slot is consumed per step and null-out preserves
the queue length, so the queue length is the exact fuel). -/

def runReadyQueueF (destroys : Nat → List Nat) :
    Nat → List (Option Nat) → List Nat
  | 0, _ => []
  | _ + 1, [] => []
  | fuel + 1, none :: rest => runReadyQueueF destroys fuel rest
  | fuel + 1, some k :: rest =>
    k :: runReadyQueueF destroys fuel (nullOutAll (destroys k) rest)

def runReadyQueue (destroys : Nat → List Nat) (q : List (Option Nat)) :
    List Nat :=
  runReadyQueueF destroys q.length q

/-- `EventLoop::TimerType`. -/

inductive TimerType where
  | kSingleShot
  | kRepeating
deriving DecidableEq, Repr

/-- One `Timer` as the loop sees it. -/

structure TimerRec where
  id : Nat
  deadline : Int
  interval_ms : Int
  ttype : TimerType
  active : Bool
deriving DecidableEq, Repr

/-- `std::set<Timer*, TimerComparator>::insert` where
`TimerComparator::operator()` is `lhs->deadline_ < rhs->deadline_` (lines
52-54): keep the list sorted by deadline; an element equivalent to an
existing one — neither strictly smaller nor strictly greater, i.e. with an
equal deadline — is NOT inserted (`std::set` rejects duplicates of its key
equivalence). -/

def timerSetInsert (t : TimerRec) : List TimerRec → List TimerRec
  | [] => [t]
  | u :: rest =>
    if t.deadline < u.deadline then t :: u :: rest
    else if u.deadline < t.deadline then u :: timerSetInsert t rest
    else u :: rest

/-- The `while` loop of `EventLoop::ProcessReadyTimers` (lines 340-366):
`process_time` is read once; timers are drained from the front of the
sorted active set while `deadline_ < process_time`, each drained timer
fires and moves to `timers_to_reschedule_`.  Returns (fired ids in firing
order, drained timers in order, remaining active timers). -/

def drainReadyTimers (process_time : Int) :
    List TimerRec → List Nat × List TimerRec × List TimerRec
  | [] => ([], [], [])
  | t :: rest =>
    if t.deadline < process_time then
      let r := drainReadyTimers process_time rest
      (t.id :: r.1, t :: r.2.1, r.2.2)
    else ([], [], t :: rest)

/-- The reschedule pass at the end of `ProcessReadyTimers`: single-shot or
stopped timers move to the inactive set; repeating timers re-enter the
active set with `deadline = reschedule_base + interval`. -/

def rescheduleTimers (reschedule_base : Int) (resched : List TimerRec)
    (active inactive : List TimerRec) : List TimerRec × List TimerRec :=
  resched.foldl
    (fun acc t =>
      if t.ttype = TimerType.kSingleShot ∨ t.active = false then
        (acc.1, acc.2 ++ [{ t with active := false }])
      else
        (timerSetInsert
          { t with deadline := reschedule_base + t.interval_ms * 1000 } acc.1,
         acc.2))
    (active, inactive)

def ProcessReadyTimers (process_time reschedule_base : Int)
    (active inactive : List TimerRec) :
    List Nat × List TimerRec × List TimerRec :=
  let d := drainReadyTimers process_time active
  let r := rescheduleTimers reschedule_base d.2.1 d.2.2 inactive
  (d.1, r.1, r.2)

/-- State of the whole loop. -/

structure LoopState where
  sockets : List Nat
  activeTimers : List TimerRec
  inactiveTimers : List TimerRec
deriving DecidableEq, Repr

/-- A callback invocation observed during one iteration. -/

inductive LoopEvent where
  | socketCb (id : Nat)
  | timerCb (id : Nat)
deriving DecidableEq, Repr

/-- `EventLoop::IterateOnce` (lines 262-338): build the ready queue from
the registered sockets that `poll` reported ready (`readySet`), in
registration order; run the socket callbacks; then run
`ProcessReadyTimers`.  Returns the invoked callbacks in order and the new
state. -/

def IterateOnce (destroys : Nat → List Nat) (readySet : List Nat)
    (now : Int) (st : LoopState) : List LoopEvent × LoopState :=
  let queue : List (Option Nat) :=
    (st.sockets.filter (fun s => readySet.contains s)).map (fun s => some s)
  let socketIds := runReadyQueue destroys queue
  let p := ProcessReadyTimers now now st.activeTimers st.inactiveTimers
  (socketIds.map LoopEvent.socketCb ++ p.1.map LoopEvent.timerCb,
   { st with activeTimers := p.2.1, inactiveTimers := p.2.2 })

/-- C7 (amended): within one iteration every socket callback precedes every
timer callback, the drained timers fire in strictly increasing deadline
order (the fired ids are exactly the drained timers' ids in order), and a
timer whose deadline equals that of an already-active timer is NOT inserted
into the active set (`std::set` under the deadline-only comparator rejects
it), so equal-deadline ties cannot arise among firing timers. -/

def tieTimerA : TimerRec := ⟨1, 100, 50, TimerType.kSingleShot, true⟩

def tieTimerB : TimerRec := ⟨2, 100, 50, TimerType.kSingleShot, true⟩

/-- C7 counterexample: the tie-breaking part of the claim is false.  Two
timers started with the same deadline do not both fire in insertion order:
`active_timers_` is a `std::set` keyed only by deadline, so inserting the
second timer leaves the set unchanged and only the first ever fires, even
though both are expired and active. -/

def sampleTimerA : TimerRec := ⟨1, 100, 50, TimerType.kRepeating, true⟩

def sampleTimerB : TimerRec := ⟨2, 150, 50, TimerType.kSingleShot, true⟩

def sampleLoopState : LoopState := ⟨[], [sampleTimerA, sampleTimerB], []⟩

theorem parseVariable_remaining_length (vars env : List (String × String))
    (rest : List Char) : (ParseVariable vars env rest).2.length ≤ rest.length := by
  match rest with
  | [] => simp [ParseVariable]
  | c0 :: rtail =>
    simp only [ParseVariable]
    by_cases hb : (c0 == '{') = true
    · simp only [hb, if_true, List.tail_cons]
      cases hd : rtail.drop (scanVarName rtail 0).length with
      | nil => simp [hd]
      | cons b rest2 =>
        have hlen : rest2.length + 1 ≤ rtail.length := by
          have h := List.length_drop (scanVarName rtail 0).length rtail
          rw [hd] at h
          simp at h
          omega
        by_cases hbo : (b == '}') = true <;>
        by_cases hne : scanVarName rtail 0 = [] <;>
        cases hlv : lookupVar vars env (String.mk (scanVarName rtail 0)) <;>
        simp [hd, hbo, hne, hlv] <;> omega
    · simp only [hb, if_false]
      by_cases hne : scanVarName (c0 :: rtail) 0 = [] <;>
      cases hlv : lookupVar vars env (String.mk (scanVarName (c0 :: rtail) 0)) <;>
      simp [hne, hlv]

theorem processF_id_of_no_special (vars env : List (String × String))
    (s : List Char) (h : ∀ c ∈ s, c ≠ '$' ∧ c ≠ '\\') :
    ∀ fuel, s.length ≤ fuel → ProcessF vars env fuel s = s := by
  induction s with
  | nil => intro fuel hf; cases fuel <;> simp [ProcessF]
  | cons c rest ih =>
    intro fuel hf
    cases fuel with
    | zero => simp at hf
    | succ f =>
      have hc := h c (by simp)
      have h' : ∀ c' ∈ rest, c' ≠ '$' ∧ c' ≠ '\\' :=
        fun c' hc' => h c' (by simp [hc'])
      have hfl : rest.length ≤ f := by
        simp only [List.length_cons] at hf
        omega
      simp only [ProcessF]
      rw [if_neg (by simp [hc.2]), if_neg (by simp [hc.1])]
      rw [ih h' f hfl]

/-- C9: variable expansion is the identity on strings containing no `$` and no
`\`, and is therefore idempotent on such strings.  (`VariableExpander::Process`
copies every character that is neither a backslash nor a dollar sign straight
to the output.) -/

theorem C9_expansion_identity_idempotent (vars env : List (String × String))
    (s : String) (h : ∀ c ∈ s.data, c ≠ '$' ∧ c ≠ '\\') :
    ExpandVariables s vars env = s ∧
    ExpandVariables (ExpandVariables s vars env) vars env
      = ExpandVariables s vars env := by
  have h1 : ExpandVariables s vars env = s := by
    unfold ExpandVariables
    rw [processF_id_of_no_special vars env s.data h s.data.length le_rfl]
  exact ⟨h1, by rw [h1, h1]⟩

theorem C9_witness :
    ExpandVariables "echo hello" [("HOME", "/tmp")] [] = "echo hello" ∧
    ExpandVariables (ExpandVariables "echo hello" [("HOME", "/tmp")] [])
        [("HOME", "/tmp")] []
      = ExpandVariables "echo hello" [("HOME", "/tmp")] [] :=
  C9_expansion_identity_idempotent [("HOME", "/tmp")] [] "echo hello" (by decide)

/-- C2: behaviour of the code at the inputs where the claimed name syntax
`[A-Za-z_][A-Za-z0-9_]*` fails.  `IsValidVariableCharacter` accepts a digit
only at position 0 (the test reads `0 == pos`), so `$X1` parses the name `X`
(undefined, left unchanged, with the trailing `1` copied literally) instead of
expanding the defined variable `X1`, while `$2` accepts the digit-led name `2`
and expands it even though the claim calls it invalid. -/

theorem C2_digit_position_check_inverted :
    ExpandVariables "$X1" [("X1", "ok")] [] = "$X1" ∧
    ExpandVariables "$2" [("2", "two")] [] = "two" ∧
    IsValidVariableCharacter '2' 0 = true ∧
    IsValidVariableCharacter '2' 1 = false := by
  refine ⟨by decide, by decide, by decide, by decide⟩

theorem updateRespawnBackoff_bounds (b d : Int) (h1 : 10 ≤ b) (h2 : b ≤ 1000) :
    10 ≤ updateRespawnBackoff b d ∧ updateRespawnBackoff b d ≤ 1000 := by
  unfold updateRespawnBackoff MIN_RESPAWN_DELAY_MS MAX_RESPAWN_DELAY_MS
    RESPAWN_BACKOFF_RATE
  split
  · exact ⟨le_min (by norm_num) (by linarith), min_le_left _ _⟩
  · refine ⟨le_max_left _ _, max_le (by norm_num) ?_⟩
    calc b / 2 ^ (d / 1000).toNat ≤ b := Int.ediv_le_self _ (by linarith)
      _ ≤ 1000 := h2

/-- C3: starting from the initial value 10, any sequence of executions of the
`start_cmd` backoff update keeps `respawn_backoff` within [10 ms, 1000 ms].
The list `deltas` contains the successive values of `ms_since_started`; the
fold visits them in order, so the bounds hold after every update (every prefix
of a sequence is itself a sequence). -/

theorem C3_respawn_backoff_bounds (deltas : List Int) :
    10 ≤ deltas.foldl updateRespawnBackoff 10 ∧
    deltas.foldl updateRespawnBackoff 10 ≤ 1000 := by
  suffices h : ∀ (b : Int), 10 ≤ b → b ≤ 1000 →
      10 ≤ deltas.foldl updateRespawnBackoff b ∧
      deltas.foldl updateRespawnBackoff b ≤ 1000 from
    h 10 le_rfl (by norm_num)
  induction deltas with
  | nil => intro b hb1 hb2; simpa using ⟨hb1, hb2⟩
  | cons d rest ih =>
    intro b hb1 hb2
    have hstep := updateRespawnBackoff_bounds b d hb1 hb2
    simpa using ih (updateRespawnBackoff b d) hstep.1 hstep.2

theorem C10_stop_cmd_stopped_noop (killOk : Int → Bool) (now : Int)
    (mi : DeputyCmd) (h : mi.status = CommandStatus.stopped) :
    stop_cmd killOk now mi = (mi, 0, []) := by
  unfold stop_cmd
  rw [if_pos h]

theorem C10_witness :
    stop_cmd (fun _ => true) 123456 sampleStoppedCmd = (sampleStoppedCmd, 0, []) :=
  C10_stop_cmd_stopped_noop (fun _ => true) 123456 sampleStoppedCmd rfl

theorem updateCmdAttrs_status (mi : DeputyCmd) (msg : CmdOrder) :
    (updateCmdAttrs mi msg).1.status = mi.status := rfl

theorem updateCmdAttrs_actual_runid (mi : DeputyCmd) (msg : CmdOrder) :
    (updateCmdAttrs mi msg).1.actual_runid = mi.actual_runid := rfl

theorem updateCmdAttrs_sheriff_id (mi : DeputyCmd) (msg : CmdOrder) :
    (updateCmdAttrs mi msg).1.sheriff_id = mi.sheriff_id := rfl

/-- C1 counterexample: the claim's two `desired_runid != 0` provisos both
fail on the code.  With a running command at `actual_runid = 5` and orders
carrying `desired_runid = 0`, `force_quit = false`, the handler calls
`stop_cmd` (the source's stop condition has no non-zero test), and with the
same command stopped under `force_quit = true` the no-action branch
overwrites `actual_runid` with 0. -/

theorem C1_counterexample :
    ¬ ((∀ (startOk : Bool) (killOk : Int → Bool) (exiting : Bool) (now : Int)
          (mi : DeputyCmd) (msg : CmdOrder),
          DeputyAction.stopReq mi.sheriff_id ∈
              (applyOrdersToCmd startOk killOk exiting now mi msg).2.2 →
            msg.force_quit = true ∨
              (msg.desired_runid ≠ mi.actual_runid ∧ msg.desired_runid ≠ 0)) ∧
       (∀ (startOk : Bool) (killOk : Int → Bool) (exiting : Bool) (now : Int)
          (mi : DeputyCmd) (msg : CmdOrder),
          (applyOrdersToCmd startOk killOk exiting now mi msg).2.2 = [] →
          (applyOrdersToCmd startOk killOk exiting now mi msg).1.actual_runid
              ≠ mi.actual_runid →
            msg.desired_runid ≠ 0)) := by
  intro h
  have h1 := h.1 true (fun _ => true) false 0 cexRunningCmd cexOrderRunidZero
    (by decide)
  have h2 := h.2 true (fun _ => true) false 0
    { cexRunningCmd with status := CommandStatus.stopped }
    { cexOrderRunidZero with force_quit := true }
    (by decide) (by decide)
  revert h1 h2
  decide

/-- C1 (amended): `desired_runid = 0` receives no special treatment.  A
running command is stopped iff `force_quit` is set or `desired_runid`
differs from `actual_runid` (whether or not the desired runid is 0); a
stopped command is started iff its runid mismatches and `force_quit` is
clear; and in the no-action branch `actual_runid` is overwritten with
`desired_runid` unconditionally. -/

theorem C1_reconcile_no_runid_zero_exemption (startOk : Bool)
    (killOk : Int → Bool) (exiting : Bool) (now : Int) (mi : DeputyCmd)
    (msg : CmdOrder) :
    (DeputyAction.stopReq mi.sheriff_id ∈
        (applyOrdersToCmd startOk killOk exiting now mi msg).2.2 ↔
      mi.status = CommandStatus.running ∧
        (msg.force_quit = true ∨ msg.desired_runid ≠ mi.actual_runid)) ∧
    (DeputyAction.started mi.sheriff_id ∈
        (applyOrdersToCmd startOk killOk exiting now mi msg).2.2 ↔
      mi.status = CommandStatus.stopped ∧
        mi.actual_runid ≠ msg.desired_runid ∧ msg.force_quit = false) ∧
    ((applyOrdersToCmd startOk killOk exiting now mi msg).2.2 = [] →
      (applyOrdersToCmd startOk killOk exiting now mi msg).1.actual_runid
        = msg.desired_runid) := by
  unfold applyOrdersToCmd updateCmdAttrs
  dsimp only
  split_ifs with h1 h2 <;>
    simp only [List.mem_singleton, List.mem_nil_iff] at * <;>
    constructor
  · simp_all
  · constructor
    · simp_all
    · simp
  · simp_all
  · constructor
    · simp_all
    · simp
  · simp_all
  · constructor
    · simp_all
    · simp

theorem C1_witness :
    (applyOrdersToCmd true (fun _ => true) false 0
        { cexRunningCmd with status := CommandStatus.stopped }
        { cexOrderRunidZero with force_quit := true }).1.actual_runid = 0 :=
  (C1_reconcile_no_runid_zero_exemption true (fun _ => true) false 0
      { cexRunningCmd with status := CommandStatus.stopped }
      { cexOrderRunidZero with force_quit := true }).2.2 (by decide)

theorem C6_stale_orders_dropped (startOk : Bool) (killOk : Int → Bool)
    (now : Int) (st : DeputyState) (orders : OrdersMsg)
    (hexit : st.exiting = false) (hhost : orders.host = st.hostname)
    (hstale : now - orders.utime > PROCMAN_MAX_MESSAGE_AGE_USEC) :
    handleOrders startOk killOk now st orders
      = (st,
         orders.cmds.map (fun c => OutputMsg.staleOrdersWarning c.sheriff_id
           ((now - orders.utime) / 1000000)),
         [], false) ∧
    (handleOrders startOk killOk now st orders).2.1.length
      = orders.cmds.length := by
  have h : handleOrders startOk killOk now st orders
      = (st,
         orders.cmds.map (fun c => OutputMsg.staleOrdersWarning c.sheriff_id
           ((now - orders.utime) / 1000000)),
         [], false) := by
    unfold handleOrders
    rw [if_neg (by simp [hexit]), if_neg (by simp [hhost]), if_pos hstale]
  exact ⟨h, by rw [h]; simp⟩

theorem C6_witness :
    handleOrders true (fun _ => true) 100000000 staleWitnessState
        staleWitnessOrders
      = (staleWitnessState,
         staleWitnessOrders.cmds.map (fun c =>
           OutputMsg.staleOrdersWarning c.sheriff_id
             ((100000000 - staleWitnessOrders.utime) / 1000000)),
         [], false) ∧
    (handleOrders true (fun _ => true) 100000000 staleWitnessState
        staleWitnessOrders).2.1.length
      = staleWitnessOrders.cmds.length :=
  C6_stale_orders_dropped true (fun _ => true) 100000000 staleWitnessState
    staleWitnessOrders rfl rfl (by decide)

theorem mem_foldl_pushIfAbsent_of_mem (x : Int) (ds acc : List Int)
    (h : x ∈ acc) : x ∈ ds.foldl pushIfAbsent acc := by
  induction ds generalizing acc with
  | nil => simpa using h
  | cons d rest ih =>
    simp only [List.foldl_cons]
    refine ih (pushIfAbsent acc d) ?_
    unfold pushIfAbsent
    split_ifs <;> simp [h]

theorem mem_foldl_pushIfAbsent (x : Int) (ds : List Int) :
    ∀ (acc : List Int), x ∈ ds → x ∈ ds.foldl pushIfAbsent acc := by
  induction ds with
  | nil => intro acc h; simp at h
  | cons d rest ih =>
    intro acc h
    simp only [List.foldl_cons]
    rcases List.mem_cons.mp h with rfl | hx
    · refine mem_foldl_pushIfAbsent_of_mem x rest (pushIfAbsent acc x) ?_
      unfold pushIfAbsent
      split_ifs with hmem <;> simp [hmem]
    · exact ih (pushIfAbsent acc d) hx

theorem nodup_foldl_pushIfAbsent (ds acc : List Int) (h : acc.Nodup) :
    (ds.foldl pushIfAbsent acc).Nodup := by
  induction ds generalizing acc with
  | nil => simpa using h
  | cons d rest ih =>
    simp only [List.foldl_cons]
    refine ih (pushIfAbsent acc d) ?_
    unfold pushIfAbsent
    split_ifs with hmem
    · exact h
    · simpa using List.Nodup.concat hmem h

/-- C4: `KillCommmand` fails with the not-running error iff `pid == 0`
(sending nothing); with a pid it first signals the pid, and when that kill
succeeds it delivers the same `signum` to every descendant reported by
Process Info, records each descendant in `descendants_to_kill` without ever
introducing a duplicate, and returns success; the call succeeds iff the
signal to the main pid succeeded. -/

theorem C4_kill_command_spec (killOk : Int → Bool) (descendants : List Int)
    (cmd : ProcmanCommand) (signum : Int)
    (hnd : cmd.descendants_to_kill.Nodup) :
    (cmd.pid = 0 →
      KillCommmand killOk descendants cmd signum
        = (cmd, KillResult.einval, [])) ∧
    (cmd.pid ≠ 0 → killOk cmd.pid = true →
      (KillCommmand killOk descendants cmd signum).2.2
          = (cmd.pid, signum) :: descendants.map (fun c => (c, signum)) ∧
      (∀ d ∈ descendants,
        d ∈ (KillCommmand killOk descendants cmd signum).1.descendants_to_kill) ∧
      (KillCommmand killOk descendants cmd signum).1.descendants_to_kill.Nodup) ∧
    (cmd.pid ≠ 0 →
      ((KillCommmand killOk descendants cmd signum).2.1 = KillResult.ok ↔
        killOk cmd.pid = true)) := by
  refine ⟨fun h0 => ?_, fun h0 hk => ?_, fun h0 => ?_⟩
  · unfold KillCommmand
    rw [if_pos h0]
  · unfold KillCommmand
    rw [if_neg h0, if_neg (by simp [hk])]
    exact ⟨rfl, fun d hd => mem_foldl_pushIfAbsent d descendants
      cmd.descendants_to_kill hd,
      nodup_foldl_pushIfAbsent descendants cmd.descendants_to_kill hnd⟩
  · unfold KillCommmand
    rw [if_neg h0]
    by_cases hk : killOk cmd.pid = true
    · rw [if_neg (by simp [hk])]
      simp [hk]
    · rw [if_pos (by simpa using hk)]
      simp [hk]

theorem C4_witness :
    KillCommmand (fun _ => true) [101, 102, 101] ⟨100, [102]⟩ 15
        = (⟨100, [102]⟩, KillResult.einval, []) ∨
      ((KillCommmand (fun _ => true) [101, 102, 101] ⟨100, [102]⟩ 15).2.2
          = (100, 15) :: [(101, 15), (102, 15), (101, 15)] ∧
        (∀ d ∈ [101, 102, 101],
          d ∈ (KillCommmand (fun _ => true) [101, 102, 101]
              ⟨100, [102]⟩ 15).1.descendants_to_kill) ∧
        (KillCommmand (fun _ => true) [101, 102, 101]
            ⟨100, [102]⟩ 15).1.descendants_to_kill.Nodup) :=
  Or.inr
    (((C4_kill_command_spec (fun _ => true) [101, 102, 101] ⟨100, [102]⟩ 15
        (by decide)).2.1 (by decide) rfl))

/-- C5: within the first `DISCOVERY_TIME_MS = 1500` ms after startup, a
deputy-info message with the local deputy id makes the deputy exit with code
2, and a discovery message with the local deputy id but a nonce different
from the local pid makes it exit with code 1. -/

theorem C5_discovery_conflicts_exit (now deputy_start_time : Int)
    (hostname : String) (deputy_pid : Int) (msg_nonce : Int)
    (hwin : now < deputy_start_time + DISCOVERY_TIME_MS * 1000)
    (hnonce : msg_nonce ≠ deputy_pid) :
    procman_deputy_info2_received now deputy_start_time hostname hostname
        = DiscoveryEffect.exitCode 2 ∧
    procman_deputy_discovery_received now deputy_start_time hostname
        deputy_pid hostname msg_nonce
        = DiscoveryEffect.exitCode 1 := by
  constructor
  · unfold procman_deputy_info2_received
    rw [if_pos hwin, if_pos rfl]
  · unfold procman_deputy_discovery_received
    rw [if_pos hwin, if_pos ⟨rfl, hnonce⟩]

theorem C5_witness :
    procman_deputy_info2_received 1000000 0 "alpha" "alpha"
        = DiscoveryEffect.exitCode 2 ∧
    procman_deputy_discovery_received 1000000 0 "alpha" 4242 "alpha" 9999
        = DiscoveryEffect.exitCode 1 :=
  C5_discovery_conflicts_exit 1000000 0 "alpha" 4242 9999 (by decide)
    (by decide)

theorem length_replaceFirst (x : Option Nat) (q : List (Option Nat)) :
    (replaceFirst x q).length = q.length := by
  induction q with
  | nil => rfl
  | cons y rest ih =>
    unfold replaceFirst
    split_ifs <;> simp [ih]

theorem mem_of_mem_replaceFirst (x y : Option Nat) (q : List (Option Nat))
    (h : y ∈ replaceFirst x q) : y = none ∨ y ∈ q := by
  induction q with
  | nil => simp [replaceFirst] at h
  | cons z rest ih =>
    unfold replaceFirst at h
    split_ifs at h with hz
    · rcases List.mem_cons.mp h with rfl | hy
      · exact Or.inl rfl
      · exact Or.inr (List.mem_cons_of_mem _ hy)
    · rcases List.mem_cons.mp h with rfl | hy
      · exact Or.inr (List.mem_cons_self _ _)
      · rcases ih hy with h1 | h1
        · exact Or.inl h1
        · exact Or.inr (List.mem_cons_of_mem _ h1)

theorem mem_replaceFirst_of_ne (x y : Option Nat) (q : List (Option Nat))
    (hne : y ≠ x) (h : y ∈ q) : y ∈ replaceFirst x q := by
  induction q with
  | nil => simp at h
  | cons z rest ih =>
    unfold replaceFirst
    rcases List.mem_cons.mp h with rfl | hy
    · rw [if_neg hne]
      exact List.mem_cons_self _ _
    · split_ifs with hz
      · exact List.mem_cons_of_mem _ hy
      · exact List.mem_cons_of_mem _ (ih hy)

theorem count_replaceFirst_le (x : Option Nat) (k : Nat)
    (q : List (Option Nat)) :
    (replaceFirst x q).count (some k) ≤ q.count (some k) := by
  induction q with
  | nil => simp [replaceFirst]
  | cons z rest ih =>
    unfold replaceFirst
    split_ifs with hz
    · simp only [List.count_cons]
      have hnone : ((none : Option Nat) == some k) = false := by simp
      simp [hnone]
    · simp only [List.count_cons]
      omega

theorem not_mem_replaceFirst_self (j : Nat) (q : List (Option Nat))
    (h : q.count (some j) ≤ 1) : some j ∉ replaceFirst (some j) q := by
  induction q with
  | nil => simp [replaceFirst]
  | cons z rest ih =>
    unfold replaceFirst
    split_ifs with hz
    · intro hmem
      rcases List.mem_cons.mp hmem with heq | hmem2
      · exact Option.noConfusion heq
      · have hc : rest.count (some j) = 0 := by
          subst hz
          simp [List.count_cons] at h
          omega
        exact (List.count_eq_zero.mp hc) hmem2
    · intro hmem
      rcases List.mem_cons.mp hmem with heq | hmem2
      · exact hz heq.symm
      · have hle : rest.count (some j) ≤ 1 := by
          simp only [List.count_cons] at h
          omega
        exact ih hle hmem2

theorem length_nullOutAll (ds : List Nat) (q : List (Option Nat)) :
    (nullOutAll ds q).length = q.length := by
  induction ds generalizing q with
  | nil => simp [nullOutAll]
  | cons d rest ih =>
    simp only [nullOutAll, List.foldl_cons]
    exact (ih (replaceFirst (some d) q)).trans (length_replaceFirst _ _)

theorem mem_of_mem_nullOutAll (ds : List Nat) (q : List (Option Nat))
    (k : Nat) (h : some k ∈ nullOutAll ds q) : some k ∈ q := by
  induction ds generalizing q with
  | nil => simpa [nullOutAll] using h
  | cons d rest ih =>
    simp only [nullOutAll, List.foldl_cons] at h
    have h2 := ih (replaceFirst (some d) q) h
    rcases mem_of_mem_replaceFirst (some d) (some k) q h2 with h1 | h1
    · exact Option.noConfusion h1
    · exact h1

theorem count_nullOutAll_le (ds : List Nat) (q : List (Option Nat)) (k : Nat) :
    (nullOutAll ds q).count (some k) ≤ q.count (some k) := by
  induction ds generalizing q with
  | nil => simp [nullOutAll]
  | cons d rest ih =>
    simp only [nullOutAll, List.foldl_cons]
    exact le_trans (ih (replaceFirst (some d) q)) (count_replaceFirst_le _ _ q)

theorem mem_nullOutAll_of_not_mem (ds : List Nat) (q : List (Option Nat))
    (k : Nat) (hk : k ∉ ds) (h : some k ∈ q) : some k ∈ nullOutAll ds q := by
  induction ds generalizing q with
  | nil => simpa [nullOutAll] using h
  | cons d rest ih =>
    simp only [nullOutAll, List.foldl_cons]
    have hkd : some k ≠ (some d : Option Nat) := by
      intro e
      obtain rfl : k = d := by injection e
      exact hk (List.mem_cons_self _ _)
    exact ih (replaceFirst (some d) q) (fun hm => hk (List.mem_cons_of_mem _ hm))
      (mem_replaceFirst_of_ne (some d) (some k) q hkd h)

theorem not_mem_nullOutAll (ds : List Nat) (q : List (Option Nat)) (j : Nat)
    (hj : j ∈ ds) (hc : q.count (some j) ≤ 1) : some j ∉ nullOutAll ds q := by
  induction ds generalizing q with
  | nil => simp at hj
  | cons d rest ih =>
    simp only [nullOutAll, List.foldl_cons]
    rcases List.mem_cons.mp hj with rfl | hj2
    · intro hmem
      have h1 := mem_of_mem_nullOutAll rest (replaceFirst (some j) q) j hmem
      exact not_mem_replaceFirst_self j q hc h1
    · exact ih (replaceFirst (some d) q) hj2
        (le_trans (count_replaceFirst_le (some d) j q) hc)

theorem mem_queue_of_mem_runReadyQueueF (destroys : Nat → List Nat) :
    ∀ (fuel : Nat) (q : List (Option Nat)) (k : Nat),
      k ∈ runReadyQueueF destroys fuel q → some k ∈ q := by
  intro fuel
  induction fuel with
  | zero => intro q k h; simp [runReadyQueueF] at h
  | succ f ih =>
    intro q k h
    match q with
    | [] => simp [runReadyQueueF] at h
    | none :: rest =>
      simp only [runReadyQueueF] at h
      exact List.mem_cons_of_mem _ (ih rest k h)
    | some k0 :: rest =>
      simp only [runReadyQueueF] at h
      rcases List.mem_cons.mp h with rfl | h2
      · exact List.mem_cons_self _ _
      · exact List.mem_cons_of_mem _
          (mem_of_mem_nullOutAll (destroys k0) rest k (ih _ k h2))

theorem pairwise_runReadyQueueF (destroys : Nat → List Nat) :
    ∀ (fuel : Nat) (q : List (Option Nat)),
      (∀ k, q.count (some k) ≤ 1) →
      List.Pairwise (fun a b => b ∉ destroys a)
        (runReadyQueueF destroys fuel q) := by
  intro fuel
  induction fuel with
  | zero => intro q _; simp [runReadyQueueF]
  | succ f ih =>
    intro q hq
    match q with
    | [] => simp [runReadyQueueF]
    | none :: rest =>
      simp only [runReadyQueueF]
      refine ih rest (fun k => le_trans ?_ (hq k))
      simp [List.count_cons]
    | some k0 :: rest =>
      simp only [runReadyQueueF]
      have hrest : ∀ k, rest.count (some k) ≤ 1 := by
        intro k
        have h := hq k
        simp only [List.count_cons] at h
        omega
      refine List.Pairwise.cons ?_
        (ih _ (fun k => le_trans (count_nullOutAll_le _ _ _) (hrest k)))
      intro b hb hbd
      exact not_mem_nullOutAll (destroys k0) rest b hbd (hrest b)
        (mem_queue_of_mem_runReadyQueueF destroys f _ b hb)

theorem mem_runReadyQueueF_of_mem (destroys : Nat → List Nat) :
    ∀ (fuel : Nat) (q : List (Option Nat)) (k : Nat),
      q.length ≤ fuel → some k ∈ q → (∀ k', k ∉ destroys k') →
      k ∈ runReadyQueueF destroys fuel q := by
  intro fuel
  induction fuel with
  | zero =>
    intro q k hf hm _
    have : q = [] := List.eq_nil_of_length_eq_zero (Nat.le_zero.mp hf)
    subst this
    simp at hm
  | succ f ih =>
    intro q k hf hm hnd
    match q with
    | [] => simp at hm
    | none :: rest =>
      simp only [runReadyQueueF]
      have h2 : some k ∈ rest := by
        rcases List.mem_cons.mp hm with h | h
        · exact Option.noConfusion h
        · exact h
      refine ih rest k ?_ h2 hnd
      simp only [List.length_cons] at hf
      omega
    | some k0 :: rest =>
      simp only [runReadyQueueF]
      by_cases hk : k = k0
      · subst hk
        exact List.mem_cons_self _ _
      · have h2 : some k ∈ rest := by
          rcases List.mem_cons.mp hm with h | h
          · exact absurd (by injection h) hk
          · exact h
        refine List.mem_cons_of_mem _ (ih _ k ?_
          (mem_nullOutAll_of_not_mem (destroys k0) rest k (hnd k0) h2) hnd)
        rw [length_nullOutAll]
        simp only [List.length_cons] at hf
        omega

theorem replaceFirst_append_first (x : Option Nat) (a b : List (Option Nat))
    (ha : x ∉ a) : replaceFirst x (a ++ x :: b) = a ++ none :: b := by
  induction a with
  | nil => simp [replaceFirst]
  | cons y ra ih =>
    simp only [List.cons_append]
    unfold replaceFirst
    rw [if_neg (fun he => ha (by rw [← he]; exact List.mem_cons_self _ _)),
      ih (fun hm => ha (List.mem_cons_of_mem _ hm))]

/-- C8: a socket notifier destroyed while queued for callback has its ready
queue slot overwritten with null in place (same position, same queue
length), the iteration's callback loop never invokes a notifier destroyed by
an earlier callback of the same iteration, and every queued notifier that
nobody destroys is still invoked. -/

theorem C8_destroyed_notifier_nulled_skipped :
    (∀ (id : Nat) (socks : List Nat) (a b : List (Option Nat)),
        some id ∉ a →
        (destroySocketNotifier id ⟨socks, a ++ some id :: b⟩).readyQueue
            = a ++ none :: b ∧
        (destroySocketNotifier id ⟨socks, a ++ some id :: b⟩).readyQueue.length
            = (a ++ some id :: b).length) ∧
    (∀ (destroys : Nat → List Nat) (q : List (Option Nat)),
        (∀ k, q.count (some k) ≤ 1) →
        List.Pairwise (fun a b => b ∉ destroys a) (runReadyQueue destroys q)) ∧
    (∀ (destroys : Nat → List Nat) (q : List (Option Nat)) (k : Nat),
        some k ∈ q → (∀ k', k ∉ destroys k') →
        k ∈ runReadyQueue destroys q) := by
  refine ⟨?_, ?_, ?_⟩
  · intro id socks a b ha
    constructor
    · exact replaceFirst_append_first (some id) a b ha
    · exact length_replaceFirst (some id) (a ++ some id :: b)
  · intro destroys q hq
    exact pairwise_runReadyQueueF destroys q.length q hq
  · intro destroys q k hm hnd
    exact mem_runReadyQueueF_of_mem destroys q.length q k le_rfl hm hnd

theorem C8_witness :
    ((destroySocketNotifier 5 ⟨[1, 5], [some 1, some 5, some 2]⟩).readyQueue
        = [some 1, none, some 2] ∧
      (destroySocketNotifier 5 ⟨[1, 5], [some 1, some 5, some 2]⟩).readyQueue.length
        = ([some 1, some 5, some 2] : List (Option Nat)).length) ∧
    3 ∈ runReadyQueue (fun _ => []) [some 3] :=
  ⟨C8_destroyed_notifier_nulled_skipped.1 5 [1, 5] [some 1] [some 2]
      (by decide),
   C8_destroyed_notifier_nulled_skipped.2.2 (fun _ => []) [some 3] 3
      (by decide) (fun _ => by simp)⟩

theorem drainReadyTimers_drained_mem (pt : Int) (l : List TimerRec) :
    ∀ u ∈ (drainReadyTimers pt l).2.1, u ∈ l := by
  induction l with
  | nil => simp [drainReadyTimers]
  | cons t rest ih =>
    intro u hu
    simp only [drainReadyTimers] at hu
    split_ifs at hu with ht
    · rcases List.mem_cons.mp hu with rfl | hu2
      · exact List.mem_cons_self _ _
      · exact List.mem_cons_of_mem _ (ih u hu2)
    · simp at hu

theorem drainReadyTimers_sorted (pt : Int) (l : List TimerRec)
    (h : List.Pairwise (fun a b => a.deadline < b.deadline) l) :
    List.Pairwise (fun a b => a.deadline < b.deadline)
      (drainReadyTimers pt l).2.1 := by
  induction l with
  | nil => simp [drainReadyTimers]
  | cons t rest ih =>
    cases h with
    | cons hrel hrest =>
      simp only [drainReadyTimers]
      split_ifs with ht
      · exact List.Pairwise.cons
          (fun u hu => hrel u (drainReadyTimers_drained_mem pt rest u hu))
          (ih hrest)
      · simp

theorem drainReadyTimers_fired_ids (pt : Int) (l : List TimerRec) :
    (drainReadyTimers pt l).1
      = (drainReadyTimers pt l).2.1.map TimerRec.id := by
  induction l with
  | nil => rfl
  | cons t rest ih =>
    simp only [drainReadyTimers]
    split_ifs <;> simp [ih]

theorem timerSetInsert_eq_of_deadline_mem (t u : TimerRec) (l : List TimerRec)
    (h : List.Pairwise (fun a b => a.deadline < b.deadline) l)
    (hu : u ∈ l) (heq : t.deadline = u.deadline) :
    timerSetInsert t l = l := by
  induction l with
  | nil => simp at hu
  | cons v rest ih =>
    cases h with
    | cons hrel hrest =>
      rcases List.mem_cons.mp hu with rfl | hu2
      · unfold timerSetInsert
        rw [if_neg (by omega), if_neg (by omega)]
      · have hv : v.deadline < t.deadline := by
          have := hrel u hu2
          omega
        unfold timerSetInsert
        rw [if_neg (by omega), if_pos hv, ih hrest hu2]

theorem C7_iteration_order (destroys : Nat → List Nat) (readySet : List Nat)
    (now : Int) (st : LoopState)
    (hsorted : List.Pairwise (fun a b => a.deadline < b.deadline)
      st.activeTimers) :
    (∃ (s t : List Nat), (IterateOnce destroys readySet now st).1
        = s.map LoopEvent.socketCb ++ t.map LoopEvent.timerCb) ∧
    List.Pairwise (fun a b => a.deadline < b.deadline)
      (drainReadyTimers now st.activeTimers).2.1 ∧
    (drainReadyTimers now st.activeTimers).1
      = (drainReadyTimers now st.activeTimers).2.1.map TimerRec.id ∧
    (∀ t u, u ∈ st.activeTimers → t.deadline = u.deadline →
      timerSetInsert t st.activeTimers = st.activeTimers) := by
  refine ⟨?_, drainReadyTimers_sorted now st.activeTimers hsorted,
    drainReadyTimers_fired_ids now st.activeTimers,
    fun t u hu he =>
      timerSetInsert_eq_of_deadline_mem t u st.activeTimers hsorted hu he⟩
  exact ⟨runReadyQueue destroys
      ((st.sockets.filter (fun s => readySet.contains s)).map (fun s => some s)),
    (ProcessReadyTimers now now st.activeTimers st.inactiveTimers).1, rfl⟩

theorem C7_counterexample :
    ¬ (∀ (t1 t2 : TimerRec) (now : Int) (st : LoopState),
        st.activeTimers = timerSetInsert t2 (timerSetInsert t1 []) →
        t1.deadline = t2.deadline → t1.deadline < now →
        (IterateOnce (fun _ => []) [] now st).1
          = [LoopEvent.timerCb t1.id, LoopEvent.timerCb t2.id]) := by
  intro h
  have hc := h tieTimerA tieTimerB 200
    ⟨[], timerSetInsert tieTimerB (timerSetInsert tieTimerA []), []⟩
    rfl rfl (by decide)
  exact absurd hc (by decide)

theorem C7_witness :
    (∃ (s t : List Nat), (IterateOnce (fun _ => []) [] 200 sampleLoopState).1
        = s.map LoopEvent.socketCb ++ t.map LoopEvent.timerCb) ∧
    List.Pairwise (fun a b => a.deadline < b.deadline)
      (drainReadyTimers 200 sampleLoopState.activeTimers).2.1 ∧
    (drainReadyTimers 200 sampleLoopState.activeTimers).1
      = (drainReadyTimers 200 sampleLoopState.activeTimers).2.1.map
          TimerRec.id ∧
    (∀ t u, u ∈ sampleLoopState.activeTimers → t.deadline = u.deadline →
      timerSetInsert t sampleLoopState.activeTimers
        = sampleLoopState.activeTimers) :=
  C7_iteration_order (fun _ => []) [] 200 sampleLoopState (by decide)

end Procman
